import Mathlib

/-
Verification of the unduck bang-resolver and history store.

Strings are modelled as lists of Unicode scalars (List Char).  The JS
functions used by the resolver (String.prototype.trim, String.prototype.replace
with a string pattern, the regexes !(\S+) and /%2F/g, encodeURIComponent) are
embedded as executable Lean functions below.  The repository contains several
concatenated revisions of src/main.ts; the resolver of the first revision is
embedded as generateSearchUrl / getBangredirectUrl, the revision starting at
line 1120 as getBangredirectUrlV2, the revision starting at line 1903 as
doRedirect, and the revision in unnamed/part_002 as getBangredirectUrlP2.
-/

namespace Unduck

abbrev Str := List Char

/-- The JS whitespace class (the \s regex class, also used by trim): space,
tab, line terminators, and the Unicode space separators plus the BOM. -/
def isSpace (c : Char) : Bool :=
  c == ' ' || c == '\t' || c == '\n' || c == '\r' || c == '\x0b' || c == '\x0c' ||
  c == ' ' || c == ' ' || ((' ' ≤ c) && (c ≤ ' ')) || c == ' ' ||
  c == ' ' || c == ' ' || c == ' ' || c == '　' || c == '﻿'

/-- JS String.prototype.trim: drop leading and trailing whitespace. -/
def trim (s : Str) : Str := ((s.dropWhile isSpace).reverse.dropWhile isSpace).reverse

/-- JS String.prototype.toLowerCase, restricted to the ASCII letters that the
bang triggers of this program use. -/
def jsToLower (s : Str) : Str := s.map Char.toLower

/-- First match of the regex !(\S+): scan left to right for a '!' that is
directly followed by at least one non-whitespace character; the match is the
'!' together with the maximal run of non-whitespace characters after it. -/
def bangMatch : Str → Option Str
  | [] => none
  | c :: t =>
    if c = '!' then
      match t with
      | [] => none
      | d :: _ => if isSpace d then bangMatch t else some ('!' :: t.takeWhile (fun x => !isSpace x))
    else bangMatch t

/-- JS String.prototype.replace with a string pattern: replace the first
occurrence of pat (the replacement carries no dollar patterns here). -/
def replaceFirst (pat rep : Str) : Str → Str
  | [] => if pat.isEmpty then rep else []
  | c :: t => if pat.isPrefixOf (c :: t) then rep ++ (c :: t).drop pat.length else c :: replaceFirst pat rep t

/-- JS String.prototype.replace with the regex !\S+\s* and empty replacement:
remove the first bang token together with the whitespace run after it
(the revision of main.ts at line 1875 cleans the query this way). -/
def stripBangWs : Str → Str
  | [] => []
  | c :: t =>
    if c = '!' then
      match t with
      | [] => [c]
      | d :: _ =>
        if isSpace d then c :: stripBangWs t
        else (t.dropWhile (fun x => !isSpace x)).dropWhile isSpace
    else c :: stripBangWs t

/-- JS String.prototype.replace with the regex /%2F/g: every literal "%2F" is
replaced by "/", scanning left to right without overlap. -/
def fixSlash : Str → Str
  | [] => []
  | [c] => [c]
  | [c, d] => [c, d]
  | c :: d :: e :: t =>
    if c = '%' ∧ d = '2' ∧ e = 'F' then '/' :: fixSlash t else c :: fixSlash (d :: e :: t)

/-- The characters encodeURIComponent leaves unescaped. -/
def isUnreserved (c : Char) : Bool :=
  (('A' ≤ c) && (c ≤ 'Z')) || (('a' ≤ c) && (c ≤ 'z')) || (('0' ≤ c) && (c ≤ '9')) ||
  c == '-' || c == '_' || c == '.' || c == '!' || c == '~' || c == '*' || c == '\x27' ||
  c == '(' || c == ')'

/-- Uppercase hexadecimal digit, as produced by encodeURIComponent. -/
def hexDigit (n : Nat) : Char := if n < 10 then Char.ofNat (48 + n) else Char.ofNat (55 + n)

/-- UTF-8 bytes of one Unicode scalar. -/
def utf8Bytes (c : Char) : List Nat :=
  let n := c.toNat
  if n < 128 then [n]
  else if n < 2048 then [192 + n / 64, 128 + n % 64]
  else if n < 65536 then [224 + n / 4096, 128 + (n / 64) % 64, 128 + n % 64]
  else [240 + n / 262144, 128 + (n / 4096) % 64, 128 + (n / 64) % 64, 128 + n % 64]

/-- Percent-encode a byte sequence. -/
def encBytes (bs : List Nat) : Str := bs.flatMap (fun b => ['%', hexDigit (b / 16), hexDigit (b % 16)])

/-- Encoding of a single character under encodeURIComponent. -/
def encChar (c : Char) : Str := if isUnreserved c then [c] else encBytes (utf8Bytes c)

/-- JS encodeURIComponent. -/
def encodeURIComponent (s : Str) : Str := s.flatMap encChar

/-- Stated from the round-trip property: percent-encode every character except
a slash, which stays a literal slash.  The encode-then-fixup pipeline of the
source is compared against this. -/
def encodeKeepingSlashes (s : Str) : Str := s.flatMap (fun c => if c = '/' then ['/'] else encChar c)

/-- The placeholder token of every URL template. -/
def placeholder : Str := "\x7b\x7b\x7bs\x7d\x7d\x7d".toList

/-- A bang definition: trigger t and URL template u (src/main.ts CustomBang). -/
structure Bang where
  t : Str
  u : Str
deriving DecidableEq

/-- The substitution u.replace of the placeholder by the encoded term with the
%2F fixup, as written at main.ts lines 953, 961, 969, 1877 and part_002. -/
def substTerm (template term : Str) : Str :=
  replaceFirst placeholder (fixSlash (encodeURIComponent term)) template

/-- The hard-coded Google fallback of main.ts line 973 (no %2F fixup there). -/
def googleFallback (q : Str) : Str := "https://www.google.com/search?q=".toList ++ encodeURIComponent q

/-- main.ts lines 940-975 (first revision).  The module-level custom table,
built-in table and default bang are passed as parameters. -/
def generateSearchUrl (custom builtin : List Bang) (defaultBang : Option Bang)
    (query : Str) (bangTrigger : Option Str) : Option Str :=
  if query.isEmpty then none
  else
    let viaBang : Option Str :=
      match bangTrigger with
      | some trig =>
        match custom.find? (fun b => jsToLower b.t == jsToLower trig) with
        | some cb => some (substTerm cb.u query)
        | none =>
          match builtin.find? (fun b => !b.t.isEmpty && (jsToLower b.t == jsToLower trig)) with
          | some b => some (substTerm b.u query)
          | none => none
      | none => none
    match viaBang with
    | some url => some url
    | none =>
      match defaultBang with
      | some db => some (substTerm db.u query)
      | none => some (googleFallback query)

/-- main.ts lines 977-1024 (first revision): returns the redirect URL together
with the list of (query, bangUsed) pairs handed to addSearch. -/
def getBangredirectUrl (custom builtin : List Bang) (defaultBang : Option Bang)
    (rawQuery : Str) : Option Str × List (Str × Str) :=
  let query := trim rawQuery
  if query.isEmpty then (none, [])
  else
    let bangPath : Option (Str × Str × Str) :=
      match bangMatch query with
      | some tok =>
        let trig := jsToLower (tok.drop 1)
        let searchTerm := trim (replaceFirst tok [] query)
        match generateSearchUrl custom builtin defaultBang searchTerm (some trig) with
        | some url => some (url, searchTerm, trig)
        | none => none
      | none => none
    match bangPath with
    | some (url, searchTerm, trig) => (some url, [(searchTerm, trig)])
    | none =>
      match generateSearchUrl custom builtin defaultBang query none with
      | some url =>
        (some url, [(query, match defaultBang with | some db => db.t | none => ['g'])])
      | none => (none, [])

/-- main.ts lines 1860-1887 (second revision): one combined lookup over the
built-in table followed by the custom table, then the default bang. -/
def getBangredirectUrlV2 (custom builtin : List Bang) (defaultBang : Option Bang)
    (rawQuery : Str) : Option Str :=
  let query := trim rawQuery
  if query.isEmpty then none
  else
    let bangCandidate : Option Str := (bangMatch query).map (fun tok => jsToLower (tok.drop 1))
    let selected : Option Bang :=
      match (builtin ++ custom).find?
          (fun b => match bangCandidate with | some bc => jsToLower b.t == bc | none => false) with
      | some b => some b
      | none => defaultBang
    let cleanQuery := trim (stripBangWs query)
    match selected with
    | some b => some (substTerm b.u cleanQuery)
    | none => none

/-- main.ts lines 2641-2680 (third revision): prefix-only bang detection,
case-sensitive trigger lookup, no %2F fixup, and the history write happens
before any resolution.  Returns the redirect URL and the addSearch arguments. -/
def doRedirect (custom builtin : List Bang) (defaultBang : Option Bang)
    (queryParam : Option Str) : Option Str × List Str :=
  match queryParam with
  | none => (none, [])
  | some query =>
    if query.isEmpty then (none, [])
    else
      let adds := [query]
      if query.head? = some '!' then
        let bangTrigger := (query.drop 1).takeWhile (fun c => c ≠ ' ')
        let searchTerm := trim (query.drop (bangTrigger.length + 1))
        match custom.find? (fun b => b.t == bangTrigger) with
        | some cb => (some (replaceFirst placeholder (encodeURIComponent searchTerm) cb.u), adds)
        | none =>
          match builtin.find? (fun b => b.t == bangTrigger) with
          | some b => (some (replaceFirst placeholder (encodeURIComponent searchTerm) b.u), adds)
          | none =>
            match defaultBang with
            | some db => (some (replaceFirst placeholder (encodeURIComponent query) db.u), adds)
            | none => (none, adds)
      else
        match defaultBang with
        | some db => (some (replaceFirst placeholder (encodeURIComponent query) db.u), adds)
        | none => (none, adds)

/-- unnamed/part_002 lines 791-858: like the first revision but with the table
lookups inlined; after a failed trigger lookup the FULL query is substituted
into the default template.  Returns the URL and the addSearch arguments. -/
def getBangredirectUrlP2 (custom builtin : List Bang) (defaultBang : Option Bang)
    (rawQuery : Str) : Option Str × List (Str × Str) :=
  let query := trim rawQuery
  if query.isEmpty then (none, [])
  else
    let noBangPath : Option Str × List (Str × Str) :=
      match defaultBang with
      | some db => (some (substTerm db.u query), [(query, db.t)])
      | none => (some (googleFallback query), [(query, ['g'])])
    match bangMatch query with
    | some tok =>
      let trig := jsToLower (tok.drop 1)
      let searchTerm := trim (replaceFirst tok [] query)
      match custom.find? (fun b => jsToLower b.t == trig) with
      | some cb => (some (substTerm cb.u searchTerm), [(searchTerm, cb.t)])
      | none =>
        match builtin.find? (fun b => !b.t.isEmpty && (jsToLower b.t == trig)) with
        | some b => (some (substTerm b.u searchTerm), [(searchTerm, b.t)])
        | none => noBangPath
    | none => noBangPath

/-- A history record (main.ts HistoryItem / SearchRecord); stored records
always carry their auto-increment key. -/
structure HistoryItem where
  id : Nat
  query : Str
  timestamp : Int
deriving DecidableEq

/-- The TimeFilter union type of main.ts line 1139. -/
inductive TimeFilter where
  | all
  | week
  | h24
  | h1
deriving DecidableEq

/-- The descending-timestamp comparator of main.ts line 1270. -/
def tsDesc (a b : HistoryItem) : Prop := b.timestamp ≤ a.timestamp

instance : DecidableRel tsDesc := fun a b => inferInstanceAs (Decidable (b.timestamp ≤ a.timestamp))

instance : IsTotal HistoryItem tsDesc := ⟨fun a b => le_total b.timestamp a.timestamp⟩

instance : IsTrans HistoryItem tsDesc := ⟨fun _ _ _ hab hbc => le_trans hbc hab⟩

/-- SearchHistoryDB.getSearchHistory, main.ts lines 1259-1290: read all
records, sort newest first (stable), then keep the ones inside the window. -/
def getSearchHistory (now : Int) (filter : TimeFilter) (items : List HistoryItem) : List HistoryItem :=
  (List.insertionSort tsDesc items).filter (fun item =>
    match filter with
    | TimeFilter.h1 => decide (now - item.timestamp < 3600000)
    | TimeFilter.h24 => decide (now - item.timestamp < 86400000)
    | TimeFilter.week => decide (now - item.timestamp < 604800000)
    | TimeFilter.all => true)

/-- SearchHistoryDB.clearHistory, main.ts lines 1292-1303: the collection is
emptied. -/
def clearHistory (_store : List HistoryItem) : List HistoryItem := []

/-- SearchHistoryDB.clearHistoryByTimeframe, main.ts lines 1305-1358: read all
records, compute the keep-set (records at least as old as the window), clear
the collection, and re-add the keep-set one record at a time; for "all" the
re-add step is skipped. -/
def clearHistoryByTimeframe (now : Int) (tf : TimeFilter) (store : List HistoryItem) : List HistoryItem :=
  let keep := store.filter (fun item =>
    match tf with
    | TimeFilter.h1 => decide (now - item.timestamp ≥ 3600000)
    | TimeFilter.h24 => decide (now - item.timestamp ≥ 86400000)
    | TimeFilter.week => decide (now - item.timestamp ≥ 604800000)
    | TimeFilter.all => false)
  let cleared : List HistoryItem := []
  match tf with
  | TimeFilter.all => cleared
  | _ => keep.foldl (fun s item => s ++ [item]) cleared

/-- SearchHistoryDB.addSearch, main.ts lines 1220-1257 (deduplicating
revision): if some record has exactly this query text, put a copy of it with a
fresh timestamp (replacing the record with that key); otherwise add a new
record under the next auto-increment key. -/
def addSearch (now : Int) (q : Str) (store : List HistoryItem) (nextId : Nat) : List HistoryItem :=
  match store.find? (fun item => item.query == q) with
  | some existing =>
    store.map (fun item => if item.id == existing.id then { item with timestamp := now } else item)
  | none => store ++ [⟨nextId, q, now⟩]

/-- A per-bang usage counter (spec.md section 3, BangUsageStat). -/
structure BangUsageStat where
  bang : Str
  count : Nat
  lastUsed : Int
deriving DecidableEq

/-- Modelled from the spec: trackBangUsage(trigger) "upserts the per-bang
counter, incrementing count and refreshing lastUsed"; a first use creates the
record with count 1.  No revision under src/ contains this function; only the
spec describes the stats store. -/
def trackBangUsage (now : Int) (trigger : Str) (stats : List BangUsageStat) : List BangUsageStat :=
  match stats.find? (fun s => s.bang == trigger) with
  | some s =>
    stats.map (fun x => if x.bang == s.bang then { x with count := x.count + 1, lastUsed := now } else x)
  | none => stats ++ [⟨trigger, 1, now⟩]

/-- Position i of the query starts a bang-token match: a '!' directly followed
by a non-whitespace character. -/
def bangStart (q : Str) (i : Nat) : Prop :=
  q.get? i = some '!' ∧ ∃ d, q.get? (i + 1) = some d ∧ isSpace d = false

/-- tok is the substring of q matched by the regex !(\S+): it sits at position
i, consists of '!' followed by one or more non-whitespace characters, is
maximal (the character after it, if any, is whitespace), and no earlier
position starts a match. -/
def firstBangTokenAt (q : Str) (i : Nat) (tok : Str) : Prop :=
  (∀ j < i, ¬ bangStart q j) ∧
  tok.head? = some '!' ∧
  2 ≤ tok.length ∧
  (∀ c ∈ tok.drop 1, isSpace c = false) ∧
  (q.drop i).take tok.length = tok ∧
  (∀ d, q.get? (i + tok.length) = some d → isSpace d = true)

/-! Helper lemmas. -/

theorem find?_append_some {α} (p : α → Bool) {l₁ : List α} (l₂ : List α) {a : α}
    (h : l₁.find? p = some a) : (l₁ ++ l₂).find? p = some a := by
  induction l₁ with
  | nil => simp at h
  | cons x t ih =>
    by_cases hx : p x
    · rw [List.find?_cons_of_pos _ hx] at h
      simpa [List.find?_cons_of_pos _ hx] using h
    · rw [List.find?_cons_of_neg _ hx] at h
      simpa [List.find?_cons_of_neg _ hx] using ih h

theorem find?_append_none {α} (p : α → Bool) {l₁ : List α} (l₂ : List α)
    (h : l₁.find? p = none) : (l₁ ++ l₂).find? p = l₂.find? p := by
  induction l₁ with
  | nil => simp
  | cons x t ih =>
    by_cases hx : p x
    · rw [List.find?_cons_of_pos _ hx] at h; exact absurd h (by simp)
    · rw [List.find?_cons_of_neg _ hx] at h
      simpa [List.find?_cons_of_neg _ hx] using ih h

theorem map_eq_self {α} (f : α → α) (l : List α) (h : ∀ a ∈ l, f a = a) : l.map f = l := by
  induction l with
  | nil => rfl
  | cons a t ih =>
    simp only [List.map_cons, h a (by simp)]
    rw [ih (fun b hb => h b (by simp [hb]))]

theorem foldl_snoc_eq {α} (l acc : List α) :
    l.foldl (fun s item => s ++ [item]) acc = acc ++ l := by
  induction l generalizing acc with
  | nil => simp
  | cons a t ih => simp [List.foldl_cons, ih]

theorem hexDigit_lt_ne_percent : ∀ n, n < 16 → hexDigit n ≠ '%' := by decide

set_option maxRecDepth 8192 in
theorem hexPair_imp_47 : ∀ b, b < 256 →
    (hexDigit (b / 16) = '2' ∧ hexDigit (b % 16) = 'F') → b = 47 := by decide

theorem char_toNat_lt (c : Char) : c.toNat < 1114112 := by
  have h := c.valid
  have hv : c.toNat = c.val.toNat := rfl
  rcases h with h | h
  · have : c.val.toNat < 55296 := h
    omega
  · have := h.2
    omega

theorem utf8Bytes_facts (c : Char) : ∀ b ∈ utf8Bytes c, b < 256 ∧ (c ≠ '/' → b ≠ 47) := by
  intro b hb
  have hvalid : c.toNat < 1114112 := char_toNat_lt c
  by_cases h1 : c.toNat < 128
  · simp only [utf8Bytes, if_pos h1, List.mem_singleton] at hb
    subst hb
    refine ⟨by omega, ?_⟩
    intro hc hb47
    apply hc
    have h2 : Char.ofNat c.toNat = c := Char.ofNat_toNat c
    rw [hb47] at h2
    rw [← h2]
  · by_cases h2 : c.toNat < 2048
    · simp only [utf8Bytes, if_neg h1, if_pos h2, List.mem_cons, List.mem_singleton,
        List.not_mem_nil, or_false] at hb
      rcases hb with hb | hb <;> exact ⟨by omega, fun _ => by omega⟩
    · by_cases h3 : c.toNat < 65536
      · simp only [utf8Bytes, if_neg h1, if_neg h2, if_pos h3, List.mem_cons,
          List.mem_singleton, List.not_mem_nil, or_false] at hb
        rcases hb with hb | hb | hb <;> exact ⟨by omega, fun _ => by omega⟩
      · simp only [utf8Bytes, if_neg h1, if_neg h2, if_neg h3, List.mem_cons,
          List.mem_singleton, List.not_mem_nil, or_false] at hb
        rcases hb with hb | hb | hb | hb <;> exact ⟨by omega, fun _ => by omega⟩

theorem fixSlash_cons_ne (x : Char) (l : Str) (hx : x ≠ '%') :
    fixSlash (x :: l) = x :: fixSlash l := by
  match l with
  | [] => rfl
  | [d] => rfl
  | d :: e :: t =>
    rw [fixSlash, if_neg (fun h => hx h.1)]

theorem fixSlash_encBytes (bs : List Nat) (r : Str)
    (h : ∀ b ∈ bs, b < 256 ∧ b ≠ 47) :
    fixSlash (encBytes bs ++ r) = encBytes bs ++ fixSlash r := by
  induction bs with
  | nil => simp [encBytes]
  | cons b t ih =>
    have hb := h b (by simp)
    have hp1 : hexDigit (b / 16) ≠ '%' := hexDigit_lt_ne_percent _ (by omega)
    have hp2 : hexDigit (b % 16) ≠ '%' := hexDigit_lt_ne_percent _ (by omega)
    have hne : ¬ (hexDigit (b / 16) = '2' ∧ hexDigit (b % 16) = 'F') := by
      intro hpair
      exact hb.2 (hexPair_imp_47 b (by omega) hpair)
    have hstep : encBytes (b :: t) ++ r
        = '%' :: hexDigit (b / 16) :: hexDigit (b % 16) :: (encBytes t ++ r) := by
      simp [encBytes]
    rw [hstep]
    rw [fixSlash, if_neg (fun hcon => hne ⟨hcon.2.1, hcon.2.2⟩)]
    rw [fixSlash_cons_ne _ _ hp1, fixSlash_cons_ne _ _ hp2]
    rw [ih (fun x hx => h x (by simp [hx]))]
    simp [encBytes]

theorem fixSlash_encChar (c : Char) (r : Str) :
    fixSlash (encChar c ++ r) = (if c = '/' then ['/'] else encChar c) ++ fixSlash r := by
  by_cases hc : c = '/'
  · subst hc
    have he : encChar '/' = ['%', '2', 'F'] := by decide
    rw [he, if_pos rfl]
    rw [show (['%', '2', 'F'] : Str) ++ r = '%' :: '2' :: 'F' :: r from rfl]
    rw [fixSlash, if_pos ⟨rfl, rfl, rfl⟩]
    rfl
  · by_cases hu : isUnreserved c = true
    · have he : encChar c = [c] := by simp [encChar, hu]
      have hcp : c ≠ '%' := by
        intro hp
        subst hp
        exact absurd hu (by decide)
      rw [he, if_neg hc]
      rw [show ([c] : Str) ++ r = c :: r from rfl]
      rw [fixSlash_cons_ne c r hcp]
      rfl
    · have he : encChar c = encBytes (utf8Bytes c) := by simp [encChar, hu]
      rw [he, if_neg hc]
      exact fixSlash_encBytes _ _
        (fun b hb => ⟨(utf8Bytes_facts c b hb).1, (utf8Bytes_facts c b hb).2 hc⟩)

theorem encodeURIComponent_fixSlash (s : Str) :
    fixSlash (encodeURIComponent s) = encodeKeepingSlashes s := by
  induction s with
  | nil => rfl
  | cons c t ih =>
    have h1 : encodeURIComponent (c :: t) = encChar c ++ encodeURIComponent t := by
      simp [encodeURIComponent]
    have h2 : encodeKeepingSlashes (c :: t)
        = (if c = '/' then ['/'] else encChar c) ++ encodeKeepingSlashes t := by
      simp [encodeKeepingSlashes]
    rw [h1, h2, fixSlash_encChar, ih]

/-! Claim theorems. -/

/-- C4: for every search term, percent-encoding followed by the %2F fixup
equals the encoding that leaves every '/' untouched, so slashes survive
unchanged; concretely, substituting "docs/api" into the Google template gives
a URL ending in "q=docs/api", not "q=docs%2Fapi". -/
theorem c4_slash_roundtrip :
    (∀ term : Str, fixSlash (encodeURIComponent term) = encodeKeepingSlashes term) ∧
    substTerm ("https://www.google.com/search?q=\x7b\x7b\x7bs\x7d\x7d\x7d".toList)
        ("docs/api".toList)
      = ("https://www.google.com/search?q=docs/api".toList) :=
  ⟨encodeURIComponent_fixSlash, by decide⟩

/-- C6: getSearchHistory with the "1h" window never returns a record more than
3,600,000 ms older than the call time; with "all" it returns every stored
record (as a permutation); for every window the result is sorted newest
first by timestamp. -/
theorem c6_getSearches_window_sorted :
    ∀ (now : Int) (items : List HistoryItem),
      (∀ r ∈ getSearchHistory now TimeFilter.h1 items, ¬ (now - r.timestamp > 3600000)) ∧
      (getSearchHistory now TimeFilter.all items).Perm items ∧
      (∀ f, List.Sorted tsDesc (getSearchHistory now f items)) := by
  intro now items
  refine ⟨?_, ?_, ?_⟩
  · intro r hr
    have hmem := (List.mem_filter.mp hr).2
    simp only [decide_eq_true_eq] at hmem
    omega
  · have : getSearchHistory now TimeFilter.all items = List.insertionSort tsDesc items := by
      simp [getSearchHistory]
    rw [this]
    exact List.perm_insertionSort tsDesc items
  · intro f
    exact List.Pairwise.filter _ (List.sorted_insertionSort tsDesc items)

/-- C6 witness at a concrete store and call time. -/
theorem c6_witness :
    (∀ r ∈ getSearchHistory 10 TimeFilter.h1
        [⟨1, "a".toList, -9999999⟩, ⟨2, "b".toList, 4⟩], ¬ (10 - r.timestamp > 3600000)) ∧
    (getSearchHistory 10 TimeFilter.all
        [⟨1, "a".toList, -9999999⟩, ⟨2, "b".toList, 4⟩]).Perm
      [⟨1, "a".toList, -9999999⟩, ⟨2, "b".toList, 4⟩] ∧
    (∀ f, List.Sorted tsDesc (getSearchHistory 10 f
        [⟨1, "a".toList, -9999999⟩, ⟨2, "b".toList, 4⟩])) :=
  c6_getSearches_window_sorted 10 [⟨1, "a".toList, -9999999⟩, ⟨2, "b".toList, 4⟩]

/-- C7: clearHistoryByTimeframe with the "24h" window keeps exactly the
records at least 86,400,000 ms old at call time: the result equals the
filtered store, every younger record is gone, and every older record is still
present with identical field values. -/
theorem c7_clear24h_frame :
    ∀ (now : Int) (store : List HistoryItem),
      clearHistoryByTimeframe now TimeFilter.h24 store
        = store.filter (fun r => decide (now - r.timestamp ≥ 86400000)) ∧
      (∀ r ∈ store, now - r.timestamp < 86400000 →
        r ∉ clearHistoryByTimeframe now TimeFilter.h24 store) ∧
      (∀ r ∈ store, now - r.timestamp ≥ 86400000 →
        r ∈ clearHistoryByTimeframe now TimeFilter.h24 store) ∧
      (∀ r ∈ clearHistoryByTimeframe now TimeFilter.h24 store, r ∈ store) := by
  intro now store
  have heq : clearHistoryByTimeframe now TimeFilter.h24 store
      = store.filter (fun r => decide (now - r.timestamp ≥ 86400000)) := by
    simp only [clearHistoryByTimeframe]
    rw [foldl_snoc_eq]
    simp
  refine ⟨heq, ?_, ?_, ?_⟩
  · intro r _ hyoung hmem
    rw [heq] at hmem
    have := (List.mem_filter.mp hmem).2
    simp only [decide_eq_true_eq] at this
    omega
  · intro r hr hold
    rw [heq]
    exact List.mem_filter.mpr ⟨hr, by simpa using hold⟩
  · intro r hr
    rw [heq] at hr
    exact (List.mem_filter.mp hr).1

/-- C7 witness at a concrete store and call time. -/
theorem c7_witness :
    clearHistoryByTimeframe 100000000 TimeFilter.h24
        [⟨1, "old".toList, 0⟩, ⟨2, "new".toList, 99999999⟩]
      = ([⟨1, "old".toList, 0⟩, ⟨2, "new".toList, 99999999⟩].filter
          (fun r => decide (100000000 - r.timestamp ≥ 86400000))) ∧
    (∀ r ∈ [⟨1, "old".toList, 0⟩, ⟨2, "new".toList, (99999999 : Int)⟩],
      100000000 - r.timestamp < 86400000 →
        r ∉ clearHistoryByTimeframe 100000000 TimeFilter.h24
          [⟨1, "old".toList, 0⟩, ⟨2, "new".toList, 99999999⟩]) ∧
    (∀ r ∈ [⟨1, "old".toList, 0⟩, ⟨2, "new".toList, (99999999 : Int)⟩],
      100000000 - r.timestamp ≥ 86400000 →
        r ∈ clearHistoryByTimeframe 100000000 TimeFilter.h24
          [⟨1, "old".toList, 0⟩, ⟨2, "new".toList, 99999999⟩]) ∧
    (∀ r ∈ clearHistoryByTimeframe 100000000 TimeFilter.h24
        [⟨1, "old".toList, 0⟩, ⟨2, "new".toList, 99999999⟩],
      r ∈ [⟨1, "old".toList, 0⟩, ⟨2, "new".toList, (99999999 : Int)⟩]) :=
  c7_clear24h_frame 100000000 [⟨1, "old".toList, 0⟩, ⟨2, "new".toList, 99999999⟩]

/-- C9: clearHistoryByTimeframe "all" leaves the collection in exactly the
state clearHistory leaves it in, namely empty. -/
theorem c9_clearAll_equals_clearHistory :
    ∀ (now : Int) (store : List HistoryItem),
      clearHistoryByTimeframe now TimeFilter.all store = clearHistory store ∧
      clearHistory store = [] := by
  intro now store
  exact ⟨rfl, rfl⟩

/-- C8: starting from a store with no stats record for "gh", two
trackBangUsage calls leave the other records untouched and exactly one "gh"
record, whose count is 2 and whose lastUsed is the second call's timestamp. -/
theorem c8_trackBangUsage_twice :
    ∀ (t1 t2 : Int) (stats : List BangUsageStat),
      (∀ s ∈ stats, s.bang ≠ ("gh".toList)) →
      trackBangUsage t2 ("gh".toList) (trackBangUsage t1 ("gh".toList) stats)
          = stats ++ [⟨"gh".toList, 2, t2⟩] ∧
      ((trackBangUsage t2 ("gh".toList) (trackBangUsage t1 ("gh".toList) stats)).filter
          (fun s => s.bang == ("gh".toList))).length = 1 := by
  intro t1 t2 stats h
  have hgh : ("gh".toList : Str) = ['g', 'h'] := rfl
  rw [hgh] at h ⊢
  have hnone : stats.find? (fun s => s.bang == ['g', 'h']) = none := by
    apply List.find?_eq_none.mpr
    intro x hx
    simpa using h x hx
  have h1 : trackBangUsage t1 ['g', 'h'] stats
      = stats ++ [⟨['g', 'h'], 1, t1⟩] := by
    unfold trackBangUsage
    rw [hnone]
  have hfind2 : (stats ++ [(⟨['g', 'h'], 1, t1⟩ : BangUsageStat)]).find?
      (fun s => s.bang == ['g', 'h']) = some ⟨['g', 'h'], 1, t1⟩ := by
    rw [find?_append_none _ _ hnone]
    simp
  have h2 : trackBangUsage t2 ['g', 'h'] (trackBangUsage t1 ['g', 'h'] stats)
      = stats ++ [⟨['g', 'h'], 2, t2⟩] := by
    rw [h1]
    simp only [trackBangUsage, hfind2]
    rw [List.map_append]
    rw [map_eq_self _ stats ?_]
    · simp
    · intro a ha
      have hb : (a.bang == (['g', 'h'] : Str)) = false := by
        simpa using h a ha
      simp [hb]
  refine ⟨h2, ?_⟩
  rw [h2, List.filter_append]
  have hnil : stats.filter (fun s => s.bang == ['g', 'h']) = [] := by
    apply List.filter_eq_nil_iff.mpr
    intro a ha
    simpa using h a ha
  simp [hnil]

/-- C8 witness at a concrete stats store and call times. -/
theorem c8_witness :
    (∀ s ∈ [(⟨"w".toList, 3, 7⟩ : BangUsageStat)], s.bang ≠ ("gh".toList)) ∧
    (trackBangUsage 9 ("gh".toList) (trackBangUsage 5 ("gh".toList) [⟨"w".toList, 3, 7⟩])
        = [⟨"w".toList, 3, 7⟩] ++ [⟨"gh".toList, 2, 9⟩] ∧
      ((trackBangUsage 9 ("gh".toList) (trackBangUsage 5 ("gh".toList) [⟨"w".toList, 3, 7⟩])).filter
          (fun s => s.bang == ("gh".toList))).length = 1) :=
  ⟨by decide, c8_trackBangUsage_twice 5 9 [⟨"w".toList, 3, 7⟩] (by decide)⟩

/-- C10: when the argument query equals the query of an existing record, the
deduplicating addSearch inserts nothing: the record count and the stored id
and query sequences are unchanged, the matched record reappears with the same
id and query but the new timestamp, and every record with a different id is
still present unchanged. -/
theorem c10_addSearch_dedup :
    ∀ (now : Int) (q : Str) (store : List HistoryItem) (nextId : Nat),
      (∃ r ∈ store, r.query = q) →
      (addSearch now q store nextId).length = store.length ∧
      (addSearch now q store nextId).map (fun x => x.id) = store.map (fun x => x.id) ∧
      (addSearch now q store nextId).map (fun x => x.query) = store.map (fun x => x.query) ∧
      (∃ r0 ∈ store, r0.query = q ∧
        (⟨r0.id, r0.query, now⟩ : HistoryItem) ∈ addSearch now q store nextId ∧
        ∀ s ∈ store, s.id ≠ r0.id → s ∈ addSearch now q store nextId) := by
  intro now q store nextId hex
  have hsome : (store.find? (fun item => item.query == q)).isSome := by
    rw [List.find?_isSome]
    rcases hex with ⟨r, hr, hq⟩
    exact ⟨r, hr, by simp [hq]⟩
  rcases Option.isSome_iff_exists.mp hsome with ⟨r0, hfind⟩
  have hr0mem : r0 ∈ store := List.mem_of_find?_eq_some hfind
  have hr0q : r0.query = q := by
    have := List.find?_some hfind
    simpa using this
  have heq : addSearch now q store nextId
      = store.map (fun item => if item.id == r0.id then { item with timestamp := now } else item) := by
    simp [addSearch, hfind]
  have hid : ∀ x : HistoryItem,
      ((if x.id == r0.id then { x with timestamp := now } else x) : HistoryItem).id = x.id := by
    intro x; by_cases hx : x.id == r0.id <;> simp [hx]
  have hquery : ∀ x : HistoryItem,
      ((if x.id == r0.id then { x with timestamp := now } else x) : HistoryItem).query = x.query := by
    intro x; by_cases hx : x.id == r0.id <;> simp [hx]
  refine ⟨by rw [heq]; simp, ?_, ?_, ?_⟩
  · rw [heq, List.map_map]
    exact List.map_congr_left (fun a _ => hid a)
  · rw [heq, List.map_map]
    exact List.map_congr_left (fun a _ => hquery a)
  · refine ⟨r0, hr0mem, hr0q, ?_, ?_⟩
    · rw [heq]
      have : ((⟨r0.id, r0.query, now⟩ : HistoryItem))
          = (fun item => if item.id == r0.id then { item with timestamp := now } else item) r0 := by
        simp
      rw [this]
      exact List.mem_map_of_mem _ hr0mem
    · intro s hs hsid
      rw [heq]
      have : s = (fun item => if item.id == r0.id then { item with timestamp := now } else item) s := by
        simp [hsid]
      rw [this]
      exact List.mem_map_of_mem _ hs

/-- C10 witness at a concrete store. -/
theorem c10_witness :
    (∃ r ∈ [(⟨1, "hi".toList, 5⟩ : HistoryItem), ⟨2, "yo".toList, 6⟩], r.query = ("hi".toList)) ∧
    ((addSearch 100 ("hi".toList) [⟨1, "hi".toList, 5⟩, ⟨2, "yo".toList, 6⟩] 3).length
        = ([(⟨1, "hi".toList, 5⟩ : HistoryItem), ⟨2, "yo".toList, 6⟩]).length ∧
      (addSearch 100 ("hi".toList) [⟨1, "hi".toList, 5⟩, ⟨2, "yo".toList, 6⟩] 3).map (fun x => x.id)
        = ([(⟨1, "hi".toList, 5⟩ : HistoryItem), ⟨2, "yo".toList, 6⟩]).map (fun x => x.id) ∧
      (addSearch 100 ("hi".toList) [⟨1, "hi".toList, 5⟩, ⟨2, "yo".toList, 6⟩] 3).map (fun x => x.query)
        = ([(⟨1, "hi".toList, 5⟩ : HistoryItem), ⟨2, "yo".toList, 6⟩]).map (fun x => x.query) ∧
      (∃ r0 ∈ [(⟨1, "hi".toList, 5⟩ : HistoryItem), ⟨2, "yo".toList, 6⟩], r0.query = ("hi".toList) ∧
        (⟨r0.id, r0.query, 100⟩ : HistoryItem)
            ∈ addSearch 100 ("hi".toList) [⟨1, "hi".toList, 5⟩, ⟨2, "yo".toList, 6⟩] 3 ∧
        ∀ s ∈ [(⟨1, "hi".toList, 5⟩ : HistoryItem), ⟨2, "yo".toList, 6⟩], s.id ≠ r0.id →
          s ∈ addSearch 100 ("hi".toList) [⟨1, "hi".toList, 5⟩, ⟨2, "yo".toList, 6⟩] 3)) :=
  ⟨⟨⟨1, "hi".toList, 5⟩, by simp, rfl⟩,
    c10_addSearch_dedup 100 ("hi".toList) [⟨1, "hi".toList, 5⟩, ⟨2, "yo".toList, 6⟩] 3
      ⟨⟨1, "hi".toList, 5⟩, by simp, rfl⟩⟩

/-- C1 (amended): in the first revision (generateSearchUrl) and in the
part_002 revision, a trigger found in the custom table wins, whatever the
built-in table holds; the second revision (getBangredirectUrlV2) searches the
built-in table first, so a trigger present in both tables resolves to the
BUILT-IN bang there. -/
theorem c1_custom_precedence :
    (∀ (custom builtin : List Bang) (db : Option Bang) (q trig : Str) (cb : Bang),
        q.isEmpty = false →
        custom.find? (fun b => jsToLower b.t == jsToLower trig) = some cb →
        generateSearchUrl custom builtin db q (some trig) = some (substTerm cb.u q)) ∧
    (∀ (custom builtin : List Bang) (db : Option Bang) (rawQ tok : Str) (cb : Bang),
        bangMatch (trim rawQ) = some tok →
        custom.find? (fun b => jsToLower b.t == jsToLower (tok.drop 1)) = some cb →
        (getBangredirectUrlP2 custom builtin db rawQ).1
          = some (substTerm cb.u (trim (replaceFirst tok [] (trim rawQ))))) ∧
    (∀ (custom builtin : List Bang) (db : Option Bang) (rawQ tok : Str) (bb : Bang),
        bangMatch (trim rawQ) = some tok →
        builtin.find? (fun b => jsToLower b.t == jsToLower (tok.drop 1)) = some bb →
        getBangredirectUrlV2 custom builtin db rawQ
          = some (substTerm bb.u (trim (stripBangWs (trim rawQ))))) := by
  refine ⟨?_, ?_, ?_⟩
  · intro custom builtin db q trig cb hq hfind
    simp [generateSearchUrl, hq, hfind]
  · intro custom builtin db rawQ tok cb hbm hfind
    have hne : (trim rawQ).isEmpty = false := by
      cases hq : (trim rawQ).isEmpty
      · rfl
      · have h0 : trim rawQ = [] := by simpa using hq
        rw [h0] at hbm
        simp [bangMatch] at hbm
    simp only [List.drop_one] at hfind
    simp [getBangredirectUrlP2, hne, hbm, hfind]
  · intro custom builtin db rawQ tok bb hbm hfind
    have hne : (trim rawQ).isEmpty = false := by
      cases hq : (trim rawQ).isEmpty
      · rfl
      · have h0 : trim rawQ = [] := by simpa using hq
        rw [h0] at hbm
        simp [bangMatch] at hbm
    simp only [List.drop_one] at hfind
    simp [getBangredirectUrlV2, hne, hbm, hfind]

/-- C1 witness: a trigger present in both tables, exercised through all three
conjuncts at concrete inputs. -/
theorem c1_witness :
    generateSearchUrl
        [⟨"zz".toList, "https://custom.example/\x7b\x7b\x7bs\x7d\x7d\x7d".toList⟩]
        [⟨"zz".toList, "https://builtin.example/\x7b\x7b\x7bs\x7d\x7d\x7d".toList⟩]
        none ("hi".toList) (some ("zz".toList))
      = some (substTerm ("https://custom.example/\x7b\x7b\x7bs\x7d\x7d\x7d".toList) ("hi".toList)) ∧
    (getBangredirectUrlP2
        [⟨"zz".toList, "https://custom.example/\x7b\x7b\x7bs\x7d\x7d\x7d".toList⟩]
        [⟨"zz".toList, "https://builtin.example/\x7b\x7b\x7bs\x7d\x7d\x7d".toList⟩]
        none ("!zz hi".toList)).1
      = some (substTerm ("https://custom.example/\x7b\x7b\x7bs\x7d\x7d\x7d".toList)
          (trim (replaceFirst ("!zz".toList) [] (trim ("!zz hi".toList))))) ∧
    getBangredirectUrlV2
        [⟨"zz".toList, "https://custom.example/\x7b\x7b\x7bs\x7d\x7d\x7d".toList⟩]
        [⟨"zz".toList, "https://builtin.example/\x7b\x7b\x7bs\x7d\x7d\x7d".toList⟩]
        none ("!zz hi".toList)
      = some (substTerm ("https://builtin.example/\x7b\x7b\x7bs\x7d\x7d\x7d".toList)
          (trim (stripBangWs (trim ("!zz hi".toList))))) :=
  ⟨c1_custom_precedence.1 _ _ none ("hi".toList) ("zz".toList)
      ⟨"zz".toList, "https://custom.example/\x7b\x7b\x7bs\x7d\x7d\x7d".toList⟩
      (by decide) (by decide),
    c1_custom_precedence.2.1 _ _ none ("!zz hi".toList) ("!zz".toList)
      ⟨"zz".toList, "https://custom.example/\x7b\x7b\x7bs\x7d\x7d\x7d".toList⟩
      (by decide) (by decide),
    c1_custom_precedence.2.2 _ _ none ("!zz hi".toList) ("!zz".toList)
      ⟨"zz".toList, "https://builtin.example/\x7b\x7b\x7bs\x7d\x7d\x7d".toList⟩
      (by decide) (by decide)⟩

/-- C1 counterexample: the trigger zz is in both tables, yet the revision at
main.ts line 1860 resolves to the built-in URL, not the custom one. -/
theorem c1_counterexample :
    getBangredirectUrlV2
        [⟨"zz".toList, "https://custom.example/\x7b\x7b\x7bs\x7d\x7d\x7d".toList⟩]
        [⟨"zz".toList, "https://builtin.example/\x7b\x7b\x7bs\x7d\x7d\x7d".toList⟩]
        none ("!zz hi".toList)
      = some ("https://builtin.example/hi".toList) ∧
    substTerm ("https://custom.example/\x7b\x7b\x7bs\x7d\x7d\x7d".toList) ("hi".toList)
      = ("https://custom.example/hi".toList) ∧
    ("https://builtin.example/hi".toList : Str) ≠ ("https://custom.example/hi".toList) :=
  ⟨by decide, by decide, by decide⟩

/-- C3 (amended): with default trigger g mapped to the Google template, the
first revision resolves the query "!nonexistentbang term" (whose trigger is in
neither table) to the Google template with the cleaned term "term"
substituted.  The part_002 revision instead substitutes the whole original
query in this fallback (see the counterexample). -/
theorem c3_unknown_bang_default_cleaned :
    ∀ (custom builtin : List Bang),
      (∀ b ∈ custom, jsToLower b.t ≠ ("nonexistentbang".toList)) →
      (∀ b ∈ builtin, jsToLower b.t ≠ ("nonexistentbang".toList)) →
      (getBangredirectUrl custom builtin
          (some ⟨"g".toList, "https://www.google.com/search?q=\x7b\x7b\x7bs\x7d\x7d\x7d".toList⟩)
          ("!nonexistentbang term".toList)).1
        = some ("https://www.google.com/search?q=term".toList) := by
  intro custom builtin hcu hbu
  have hlow : jsToLower ("nonexistentbang".toList) = ("nonexistentbang".toList) := by decide
  have hc : custom.find?
      (fun b => jsToLower b.t == jsToLower ("nonexistentbang".toList)) = none := by
    apply List.find?_eq_none.mpr
    intro x hx
    simp only [beq_iff_eq, hlow]
    exact hcu x hx
  have hb : builtin.find?
      (fun b => !b.t.isEmpty && (jsToLower b.t == jsToLower ("nonexistentbang".toList))) = none := by
    apply List.find?_eq_none.mpr
    intro x hx
    simp only [Bool.and_eq_true, Bool.not_eq_true', beq_iff_eq, hlow, not_and]
    intro _
    exact hbu x hx
  have hne : (trim ("!nonexistentbang term".toList)).isEmpty = false := by decide
  have hbm : bangMatch (trim ("!nonexistentbang term".toList))
      = some ("!nonexistentbang".toList) := by decide
  have hterm : trim (replaceFirst ("!nonexistentbang".toList) []
      (trim ("!nonexistentbang term".toList))) = ("term".toList) := by decide
  have hfin : substTerm ("https://www.google.com/search?q=\x7b\x7b\x7bs\x7d\x7d\x7d".toList)
      ("term".toList) = ("https://www.google.com/search?q=term".toList) := by decide
  simp only [String.toList] at hc hb hne hbm hterm hfin hlow
  have key : generateSearchUrl custom builtin
      (some ⟨("g".toList : Str), "https://www.google.com/search?q=\x7b\x7b\x7bs\x7d\x7d\x7d".toList⟩)
      ("term".toList) (some ("nonexistentbang".toList))
      = some (substTerm ("https://www.google.com/search?q=\x7b\x7b\x7bs\x7d\x7d\x7d".toList)
          ("term".toList)) := by
    simp only [String.toList]
    simp [generateSearchUrl, hc, hb]
  simp only [String.toList] at key
  simp [getBangredirectUrl, hne, hbm, hterm, hlow, key, hfin]

/-- C3 witness at concrete tables. -/
theorem c3_witness :
    (∀ b ∈ ([] : List Bang), jsToLower b.t ≠ ("nonexistentbang".toList)) ∧
    (∀ b ∈ [(⟨"g".toList, "https://www.google.com/search?q=\x7b\x7b\x7bs\x7d\x7d\x7d".toList⟩ : Bang)],
      jsToLower b.t ≠ ("nonexistentbang".toList)) ∧
    (getBangredirectUrl []
        [⟨"g".toList, "https://www.google.com/search?q=\x7b\x7b\x7bs\x7d\x7d\x7d".toList⟩]
        (some ⟨"g".toList, "https://www.google.com/search?q=\x7b\x7b\x7bs\x7d\x7d\x7d".toList⟩)
        ("!nonexistentbang term".toList)).1
      = some ("https://www.google.com/search?q=term".toList) :=
  ⟨by decide, by decide,
    c3_unknown_bang_default_cleaned []
      [⟨"g".toList, "https://www.google.com/search?q=\x7b\x7b\x7bs\x7d\x7d\x7d".toList⟩]
      (by decide) (by decide)⟩

/-- C3 counterexample: on the same scenario the part_002 revision substitutes
the whole original query, not the cleaned term. -/
theorem c3_counterexample :
    (getBangredirectUrlP2 []
        [⟨"g".toList, "https://www.google.com/search?q=\x7b\x7b\x7bs\x7d\x7d\x7d".toList⟩]
        (some ⟨"g".toList, "https://www.google.com/search?q=\x7b\x7b\x7bs\x7d\x7d\x7d".toList⟩)
        ("!nonexistentbang term".toList)).1
      = some ("https://www.google.com/search?q=!nonexistentbang%20term".toList) ∧
    ("https://www.google.com/search?q=!nonexistentbang%20term".toList : Str)
      ≠ ("https://www.google.com/search?q=term".toList) :=
  ⟨by decide, by decide⟩

theorem generateSearchUrl_no_trigger_isSome (custom builtin : List Bang) (db : Option Bang)
    (q : Str) (hq : q.isEmpty = false) :
    ∃ url, generateSearchUrl custom builtin db q none = some url := by
  cases db with
  | none => exact ⟨googleFallback q, by simp [generateSearchUrl, hq]⟩
  | some d => exact ⟨substTerm d.u q, by simp [generateSearchUrl, hq]⟩

theorem getBangredirectUrl_fst_isSome (custom builtin : List Bang) (db : Option Bang)
    (rawQ : Str) (hne : (trim rawQ).isEmpty = false) :
    ∃ url, (getBangredirectUrl custom builtin db rawQ).1 = some url := by
  obtain ⟨u0, hu0⟩ := generateSearchUrl_no_trigger_isSome custom builtin db (trim rawQ) hne
  cases hbm : bangMatch (trim rawQ) with
  | none =>
    refine ⟨u0, ?_⟩
    simp [getBangredirectUrl, hne, hbm, hu0]
  | some tok =>
    cases hgen : generateSearchUrl custom builtin db
        (trim (replaceFirst tok [] (trim rawQ))) (some (jsToLower (tok.tail))) with
    | some url =>
      refine ⟨url, ?_⟩
      simp [getBangredirectUrl, hne, hbm, hgen]
    | none =>
      refine ⟨u0, ?_⟩
      simp [getBangredirectUrl, hne, hbm, hgen, hu0]

/-- C5 (amended): the first revision returns null exactly when the query is
empty after trimming and then writes nothing to history, and returns a URL for
every other query; the third revision (doRedirect) checks only for an absent
or empty parameter, so a whitespace-only query is written to history and
redirected (see the counterexample). -/
theorem c5_null_iff_trimmed_empty :
    ∀ (custom builtin : List Bang) (db : Option Bang) (rawQ : Str),
      ((getBangredirectUrl custom builtin db rawQ).1 = none ↔ trim rawQ = []) ∧
      (trim rawQ = [] → (getBangredirectUrl custom builtin db rawQ).2 = []) := by
  intro custom builtin db rawQ
  by_cases he : trim rawQ = []
  · have h1 : getBangredirectUrl custom builtin db rawQ = (none, []) := by
      simp [getBangredirectUrl, he]
    rw [h1]
    exact ⟨by simp [he], fun _ => rfl⟩
  · have hne : (trim rawQ).isEmpty = false := by
      cases hq : (trim rawQ).isEmpty
      · rfl
      · exact absurd (by simpa using hq) he
    obtain ⟨url, hurl⟩ := getBangredirectUrl_fst_isSome custom builtin db rawQ hne
    rw [hurl]
    refine ⟨⟨fun h => absurd h (by simp), fun h => absurd h he⟩, fun h => absurd h he⟩

/-- C5 witness: a whitespace-only query yields null and no history write in
the first revision. -/
theorem c5_witness :
    ((getBangredirectUrl [] [] none (" ".toList)).1 = none ↔ trim (" ".toList) = []) ∧
    (trim (" ".toList) = [] → (getBangredirectUrl [] [] none (" ".toList)).2 = []) :=
  c5_null_iff_trimmed_empty [] [] none (" ".toList)

/-- C5 counterexample: the doRedirect revision at main.ts line 2641 does not
trim, so the whitespace-only query " " (empty after trimming) produces a
redirect URL and a history write. -/
theorem c5_counterexample :
    trim (" ".toList) = ([] : Str) ∧
    doRedirect [] []
        (some ⟨"g".toList, "https://www.google.com/search?q=\x7b\x7b\x7bs\x7d\x7d\x7d".toList⟩)
        (some (" ".toList))
      = (some ("https://www.google.com/search?q=%20".toList), [(" ".toList)]) :=
  ⟨by decide, by decide⟩

theorem get?_takeWhile_length {p : Char → Bool} :
    ∀ (l : Str) (e : Char), l.get? (l.takeWhile p).length = some e → p e = false := by
  intro l
  induction l with
  | nil => intro e h; simp at h
  | cons a t ih =>
    intro e h
    by_cases hp : p a
    · rw [List.takeWhile_cons_of_pos hp] at h
      simp only [List.length_cons, List.get?_cons_succ] at h
      exact ih e h
    · have hp' : p a = false := by
        cases hpa : p a
        · rfl
        · exact absurd hpa hp
      rw [List.takeWhile_cons_of_neg hp] at h
      simp only [List.length_nil, List.get?_cons_zero, Option.some.injEq] at h
      rw [← h]
      exact hp'

theorem bangStart_cons_succ (c : Char) (q : Str) (j : Nat) :
    bangStart (c :: q) (j + 1) ↔ bangStart q j := by
  simp [bangStart, List.get?_cons_succ]

theorem bangStart_head (c d : Char) (q : Str) :
    bangStart (c :: d :: q) 0 ↔ (c = '!' ∧ isSpace d = false) := by
  simp [bangStart]

theorem tok_shape {tok : Str} (hhead : tok.head? = some '!') (hlen : 2 ≤ tok.length)
    (hns : ∀ c ∈ tok.drop 1, isSpace c = false) :
    ∃ e w, tok = '!' :: e :: w ∧ isSpace e = false := by
  cases tok with
  | nil => simp at hhead
  | cons a t =>
    have ha : a = '!' := by simpa using hhead
    subst ha
    cases t with
    | nil => simp at hlen
    | cons e w => exact ⟨e, w, rfl, hns e (by simp)⟩

theorem bangMatch_none_spec : ∀ q, bangMatch q = none → ∀ i, ¬ bangStart q i := by
  intro q
  induction q with
  | nil =>
    intro _ i hb
    rcases hb with ⟨h0, _⟩
    simp at h0
  | cons c t ih =>
    intro h i
    by_cases hc : c = '!'
    · subst hc
      cases t with
      | nil =>
        intro hb
        rcases hb with ⟨h0, e, h1, _⟩
        cases i with
        | zero => simp at h1
        | succ j => simp at h0
      | cons d t' =>
        by_cases hd : isSpace d = true
        · have h' : bangMatch (d :: t') = none := by
            simpa [bangMatch, hd] using h
          cases i with
          | zero =>
            intro hb
            rw [bangStart_head] at hb
            rw [hb.2] at hd
            simp at hd
          | succ j =>
            rw [bangStart_cons_succ]
            exact ih h' j
        · exfalso
          simp [bangMatch, hd] at h
    · have h' : bangMatch t = none := by simpa [bangMatch, hc] using h
      cases i with
      | zero =>
        intro hb
        rcases hb with ⟨h0, _⟩
        exact hc (by simpa using h0)
      | succ j =>
        rw [bangStart_cons_succ]
        exact ih h' j

theorem bangMatch_some_spec : ∀ (q tok : Str), bangMatch q = some tok →
    ∃ i, firstBangTokenAt q i tok ∧
      replaceFirst tok [] q = q.take i ++ q.drop (i + tok.length) := by
  intro q
  induction q with
  | nil => intro tok h; simp [bangMatch] at h
  | cons c t ih =>
    intro tok h
    by_cases hc : c = '!'
    · subst hc
      cases t with
      | nil => simp [bangMatch] at h
      | cons d t' =>
        by_cases hd : isSpace d = true
        · -- no match at position 0; the match is further right
          have h' : bangMatch (d :: t') = some tok := by simpa [bangMatch, hd] using h
          obtain ⟨i, ⟨hfirst, hhead, hlen, hns, hsub, hmax⟩, hrepl⟩ := ih tok h'
          obtain ⟨e, w, htok, hens⟩ := tok_shape hhead hlen hns
          refine ⟨i + 1, ⟨?_, hhead, hlen, hns, ?_, ?_⟩, ?_⟩
          · intro j hj
            cases j with
            | zero =>
              intro hb
              rw [bangStart_head] at hb
              rw [hb.2] at hd
              simp at hd
            | succ j' =>
              rw [bangStart_cons_succ]
              exact hfirst j' (by omega)
          · simpa using hsub
          · intro x hx
            apply hmax
            rw [show i + 1 + tok.length = (i + tok.length) + 1 from by omega] at hx
            simpa using hx
          · have hnp : tok.isPrefixOf ('!' :: d :: t') = false := by
              cases hpf : tok.isPrefixOf ('!' :: d :: t')
              · rfl
              · exfalso
                have hpre := List.isPrefixOf_iff_prefix.mp hpf
                rw [htok] at hpre
                have h2 := (List.cons_prefix_cons.mp hpre).2
                have h3 := (List.cons_prefix_cons.mp h2).1
                rw [← h3] at hd
                rw [hens] at hd
                simp at hd
            rw [show replaceFirst tok [] ('!' :: d :: t')
                = if tok.isPrefixOf ('!' :: d :: t')
                  then [] ++ ('!' :: d :: t').drop tok.length
                  else '!' :: replaceFirst tok [] (d :: t') from rfl]
            rw [hnp]
            simp only [Bool.false_eq_true, if_false]
            rw [show i + 1 + tok.length = (i + tok.length) + 1 from by omega]
            simp only [List.take_succ_cons, List.drop_succ_cons, List.cons_append,
              List.cons.injEq, true_and]
            exact hrepl
        · -- match at position 0
          have hd' : isSpace d = false := by
            cases hds : isSpace d
            · rfl
            · exact absurd hds hd
          have htok : tok = '!' :: (d :: t').takeWhile (fun x => !isSpace x) := by
            have h2 : bangMatch ('!' :: d :: t')
                = some ('!' :: (d :: t').takeWhile (fun x => !isSpace x)) := by
              simp [bangMatch, hd']
            rw [h2] at h
            exact (Option.some.injEq _ _ ▸ h).symm
          have hwcons : (d :: t').takeWhile (fun x => !isSpace x)
              = d :: t'.takeWhile (fun x => !isSpace x) := by
            simp [List.takeWhile_cons, hd']
          refine ⟨0, ⟨?_, ?_, ?_, ?_, ?_, ?_⟩, ?_⟩
          · intro j hj
            exact absurd hj (Nat.not_lt_zero j)
          · rw [htok]; rfl
          · rw [htok, hwcons]
            simp only [List.length_cons]
            omega
          · intro x hx
            rw [htok] at hx
            simp only [List.drop_succ_cons, List.drop_zero] at hx
            have := List.mem_takeWhile_imp hx
            simpa using this
          · rw [htok, hwcons]
            simp only [List.drop_zero, List.length_cons, List.take_succ_cons,
              List.cons.injEq, true_and]
            have hpre : t'.takeWhile (fun x => !isSpace x) <+: t' := List.takeWhile_prefix _
            have := List.prefix_iff_eq_take.mp hpre
            rw [hwcons] at htok
            simpa using this.symm
          · intro x hx
            rw [htok] at hx
            simp only [List.length_cons, Nat.zero_add, List.get?_cons_succ] at hx
            have := get?_takeWhile_length (d :: t') x hx
            simpa using this
          · have hpre : tok <+: ('!' :: d :: t') := by
              rw [htok]
              exact List.cons_prefix_cons.mpr ⟨rfl, List.takeWhile_prefix _⟩
            have hp : tok.isPrefixOf ('!' :: d :: t') = true :=
              List.isPrefixOf_iff_prefix.mpr hpre
            rw [show replaceFirst tok [] ('!' :: d :: t')
                = if tok.isPrefixOf ('!' :: d :: t')
                  then [] ++ ('!' :: d :: t').drop tok.length
                  else '!' :: replaceFirst tok [] (d :: t') from rfl]
            rw [hp]
            simp
    · -- first character is not '!'; the match is further right
      have h' : bangMatch t = some tok := by simpa [bangMatch, hc] using h
      obtain ⟨i, ⟨hfirst, hhead, hlen, hns, hsub, hmax⟩, hrepl⟩ := ih tok h'
      obtain ⟨e, w, htok, hens⟩ := tok_shape hhead hlen hns
      refine ⟨i + 1, ⟨?_, hhead, hlen, hns, ?_, ?_⟩, ?_⟩
      · intro j hj
        cases j with
        | zero =>
          intro hb
          rcases hb with ⟨h0, _⟩
          exact hc (by simpa using h0)
        | succ j' =>
          rw [bangStart_cons_succ]
          exact hfirst j' (by omega)
      · simpa using hsub
      · intro x hx
        apply hmax
        rw [show i + 1 + tok.length = (i + tok.length) + 1 from by omega] at hx
        simpa using hx
      · have hnp : tok.isPrefixOf (c :: t) = false := by
          cases hpf : tok.isPrefixOf (c :: t)
          · rfl
          · exfalso
            have hpre := List.isPrefixOf_iff_prefix.mp hpf
            rw [htok] at hpre
            exact hc (List.cons_prefix_cons.mp hpre).1.symm
        rw [show replaceFirst tok [] (c :: t)
            = if tok.isPrefixOf (c :: t)
              then [] ++ (c :: t).drop tok.length
              else c :: replaceFirst tok [] t from rfl]
        rw [hnp]
        simp only [Bool.false_eq_true, if_false]
        rw [show i + 1 + tok.length = (i + tok.length) + 1 from by omega]
        simp only [List.take_succ_cons, List.drop_succ_cons, List.cons_append,
          List.cons.injEq, true_and]
        exact hrepl

/-- C2 (amended): in the first revision the bang token handed to the resolver
is exactly the first substring matching the regex (a '!' directly followed by
a maximal nonempty run of non-whitespace characters, at the earliest possible
position, anywhere in the query), and the search term is the query with that
matched occurrence removed and then trimmed; when no such substring exists
the regex finds nothing.  The second revision also strips the whitespace
following the token (concrete contrast below), and the third revision only
recognizes a prefix bang (see the counterexample). -/
theorem c2_parse_characterization :
    (∀ (q tok : Str), bangMatch q = some tok →
        ∃ i, firstBangTokenAt q i tok ∧
          replaceFirst tok [] q = q.take i ++ q.drop (i + tok.length)) ∧
    (∀ q : Str, bangMatch q = none → ∀ i, ¬ bangStart q i) ∧
    (trim (stripBangWs ("a !b c".toList)) = ("a c".toList)) ∧
    (trim (replaceFirst ("!b".toList) [] ("a !b c".toList)) = ("a  c".toList)) :=
  ⟨bangMatch_some_spec, bangMatch_none_spec, by decide, by decide⟩

/-- C2 witness: the characterization applied to a query with a mid-string
bang token. -/
theorem c2_witness :
    ∃ i, firstBangTokenAt ("hello !gh world".toList) i ("!gh".toList) ∧
      replaceFirst ("!gh".toList) [] ("hello !gh world".toList)
        = ("hello !gh world".toList).take i
          ++ ("hello !gh world".toList).drop (i + ("!gh".toList).length) :=
  c2_parse_characterization.1 ("hello !gh world".toList) ("!gh".toList) (by decide)

/-- C2 counterexample: the query "hello !w" contains the bang token "!w", yet
the doRedirect revision at main.ts line 2641 never extracts it (it only
treats a LEADING '!' as a bang): resolution uses the default engine with the
full query, not the w bang with term "hello". -/
theorem c2_counterexample :
    bangMatch ("hello !w".toList) = some ("!w".toList) ∧
    doRedirect [] [⟨"w".toList, "https://w.example/\x7b\x7b\x7bs\x7d\x7d\x7d".toList⟩]
        (some ⟨"g".toList, "https://www.google.com/search?q=\x7b\x7b\x7bs\x7d\x7d\x7d".toList⟩)
        (some ("hello !w".toList))
      = (some ("https://www.google.com/search?q=hello%20!w".toList), [("hello !w".toList)]) ∧
    ("https://www.google.com/search?q=hello%20!w".toList : Str)
      ≠ ("https://w.example/hello".toList) :=
  ⟨by decide, by decide, by decide⟩

end Unduck
